import Mathlib

/-!
Shallow embedding of the geocamFolder access-control subsystem
(geocamFolder/models.py): the data model (folders, users, groups,
permission rows), the permission-resolution functions
(getAllowedFolders / isAllowed / assertAllowed), the result cache
keyed by a global generation counter, the ACL mutation operations
(setPermissions / copyAcl / makeSubFolder / removeSubFolder) and
slash-separated path resolution (getFolder), together with theorems
checking the specification's claims against these definitions.

Conventions: Django model rows become Lean structures; the database is
an explicit record of row lists; the Django cache plus the global
FOLDER_CACHE_VERSION counter become an explicit state record threaded
through the functions that read or write them; Python exceptions
become an error type returned through Except / Option.
-/

namespace Geocam

/-- A Django auth user restricted to the fields this subsystem reads:
username, the active flag, the superuser flag and the ids of the
groups the user belongs to (user.groups). -/
structure User where
  id : Nat
  username : String
  is_active : Bool
  is_superuser : Bool
  groups : List Nat
  deriving DecidableEq

/-- A Django auth group (only id and name are read). -/
structure Group where
  id : Nat
  name : String
  deriving DecidableEq

/-- An agent argument of Folder.setPermissions: the source dispatches on
isinstance(agent, User) / isinstance(agent, Group); string agent names
are first resolved by getAgentByName to one of these. -/
inductive Agent where
  | user (u : User)
  | group (g : Group)
  deriving DecidableEq

/-- ACTION_CHOICES from the source: full names of the six actions; the
single-character code of an action is its first letter. -/
def ACTION_CHOICES : List String := ["read", "list", "insert", "delete", "change", "admin"]

/-- ACTION_LOOKUP: first letter of an action name to the full name.  A
character that is not an action code has no entry (the Python dict
lookup would raise KeyError). -/
def ACTION_LOOKUP (c : Char) : Option String :=
  (ACTION_CHOICES.map (fun n => (n.front, n))).lookup c

/-- Action.READ character code. -/
def Action.READ : Char := 'r'

/-- Action.LIST character code. -/
def Action.LIST : Char := 'l'

/-- Action.INSERT character code. -/
def Action.INSERT : Char := 'i'

/-- Action.DELETE character code. -/
def Action.DELETE : Char := 'd'

/-- Action.CHANGE character code. -/
def Action.CHANGE : Char := 'c'

/-- Action.ADMIN character code. -/
def Action.ADMIN : Char := 'a'

/-- Actions.READ combination string. -/
def Actions.READ : String := "rl"

/-- Actions.WRITE combination string. -/
def Actions.WRITE : String := "rlidc"

/-- Actions.ALL combination string. -/
def Actions.ALL : String := "rlidca"

/-- Actions.NONE combination string (empty action-set). -/
def Actions.NONE : String := ""

/-- The six boolean permission columns of AgentPermission
(canRead, canList, canInsert, canDelete, canChange, canAdmin). -/
structure PermBits where
  canRead : Bool
  canList : Bool
  canInsert : Bool
  canDelete : Bool
  canChange : Bool
  canAdmin : Bool
  deriving DecidableEq

/-- AgentPermission.allows: read the boolean column selected by
getActionField ('can' + capitalized full action name).  An invalid
action character raises KeyError in the source; modelled as false,
never exercised (call sites pass valid action codes). -/
def PermBits.allows (b : PermBits) (action : Char) : Bool :=
  if action = 'r' then b.canRead
  else if action = 'l' then b.canList
  else if action = 'i' then b.canInsert
  else if action = 'd' then b.canDelete
  else if action = 'c' then b.canChange
  else if action = 'a' then b.canAdmin
  else false

/-- Python's 'c in s' character membership test (phrased over the
string's character list, which the kernel can evaluate). -/
def strContains (s : String) (c : Char) : Bool := s.data.contains c

/-- AgentPermission.setActions: for each action code in Actions.ALL the
column is set to whether the code occurs in the given actions string. -/
def PermBits.setActions (actions : String) : PermBits :=
  { canRead := strContains actions 'r'
    canList := strContains actions 'l'
    canInsert := strContains actions 'i'
    canDelete := strContains actions 'd'
    canChange := strContains actions 'c'
    canAdmin := strContains actions 'a' }

/-- AgentPermission.getActions: the action codes whose column is set,
in Actions.ALL order. -/
def PermBits.getActions (b : PermBits) : String :=
  (if b.canRead then "r" else "") ++ (if b.canList then "l" else "")
    ++ (if b.canInsert then "i" else "") ++ (if b.canDelete then "d" else "")
    ++ (if b.canChange then "c" else "") ++ (if b.canAdmin then "a" else "")

/-- A UserPermission row: user id, folder id, permission columns. -/
structure UserPermission where
  user : Nat
  folder : Nat
  bits : PermBits
  deriving DecidableEq

/-- A GroupPermission row: group id, folder id, permission columns. -/
structure GroupPermission where
  group : Nat
  folder : Nat
  bits : PermBits
  deriving DecidableEq

/-- A Folder row: id, name, optional parent id, plus the free-form
notes and uuid columns (the extras key/value blob is opaque to the
access-control logic and not modelled). -/
structure Folder where
  id : Nat
  name : String
  parent : Option Nat
  notes : String := ""
  uuid : String := ""
  deriving DecidableEq

/-- The database tables this subsystem touches, plus the auto-increment
counter handing out primary keys for new folders. -/
structure Db where
  folders : List Folder
  userPerms : List UserPermission
  groupPerms : List GroupPermission
  nextFolderId : Nat
  deriving DecidableEq

/-- The configuration knobs read from settings. -/
structure Settings where
  accessControlEnabled : Bool
  folderCacheEnabled : Bool
  folderCacheTimeoutSeconds : Nat
  deriving DecidableEq

/-- Default values of the settings knobs. -/
def defaultSettings : Settings :=
  { accessControlEnabled := true, folderCacheEnabled := true, folderCacheTimeoutSeconds := 30 }

/-- The mutable state outside the database: the global
FOLDER_CACHE_VERSION counter and the Django cache entries holding
memoized getAllowedFolders results.  Entries are stored with a TTL in
the source; expiry is not modelled, matching reads that happen within
the TTL window (the folder-tree memo entries are not modelled; the
claims examined here read the tree only in the cache-disabled
configuration, where the source bypasses the cache). -/
structure SysState where
  db : Db
  cacheVersion : Nat
  afCache : List (String × Finset Nat)
  deriving DecidableEq

/-- Id of the implicit 'any user' group (fixtures/initial_data.json). -/
def GROUP_ANYUSER_ID : Nat := 1

/-- Id of the implicit 'authenticated user' group. -/
def GROUP_AUTHUSER_ID : Nat := 2

/-- _addGroupAllowedFolders: the folder ids of GroupPermission rows of
the given group whose column for the action is set (the source stores
folder objects keyed by id into a dict; only the key set is ever
consulted, so the model keeps the id set). -/
def addGroupAllowedFolders (db : Db) (groupId : Nat) (action : Char) : Finset Nat :=
  ((db.groupPerms.filter (fun p => p.group == groupId && p.bits.allows action)).map
    (fun p => p.folder)).toFinset

/-- _getAllowedFoldersNoCache: folders granted the action to the
ANY_USER group; if the user is present and active, additionally
folders granted to AUTH_USER, to the user directly, and to each of the
user's groups. -/
def getAllowedFoldersNoCache (db : Db) (user : Option User) (action : Char) : Finset Nat :=
  let allowed := addGroupAllowedFolders db GROUP_ANYUSER_ID action
  match user with
  | some u =>
    if u.is_active then
      let allowed := allowed ∪ addGroupAllowedFolders db GROUP_AUTHUSER_ID action
      let allowed := allowed ∪
        ((db.userPerms.filter (fun p => p.user == u.id && p.bits.allows action)).map
          (fun p => p.folder)).toFinset
      u.groups.foldl (fun acc g => acc ∪ addGroupAllowedFolders db g action) allowed
    else allowed
  | none => allowed

/-- Python repr of the user argument as it appears in the cache key
(None, or the Django User repr). -/
def reprOfOptionUser : Option User → String
  | none => "None"
  | some u => "<User: " ++ u.username ++ ">"

/-- Python repr of the action character argument. -/
def reprOfChar (c : Char) : String := "'" ++ String.singleton c ++ "'"

/-- getCacheKey: version, module and function name, then the reprs of
the arguments joined by dots (urlquote, an injective percent-encoding,
is modelled as the identity). -/
def getCacheKey (version : Nat) (moduleName funcName : String) (argReprs : List String) : String :=
  toString version ++ "." ++ moduleName ++ "." ++ funcName ++ "."
    ++ String.intercalate "." argReprs

/-- getAllowedFolders = getWithCache(_getAllowedFoldersNoCache, (user, action)):
with caching enabled, look up the key built from the current cache
version and the argument reprs; on a miss compute the uncached result
and store it; with caching disabled call the uncached function
directly. -/
def getAllowedFolders (g : Settings) (st : SysState) (user : Option User) (action : Char) :
    Finset Nat × SysState :=
  if g.folderCacheEnabled then
    let key := getCacheKey st.cacheVersion "geocamFolder.models" "_getAllowedFoldersNoCache"
      [reprOfOptionUser user, reprOfChar action]
    match st.afCache.lookup key with
    | some r => (r, st)
    | none =>
      let r := getAllowedFoldersNoCache st.db user action
      (r, { st with afCache := (key, r) :: st.afCache })
  else (getAllowedFoldersNoCache st.db user action, st)

/-- flushCache: bump the global FOLDER_CACHE_VERSION, making every
previously written cache key unreachable. -/
def flushCache (st : SysState) : SysState :=
  { st with cacheVersion := st.cacheVersion + 1 }

/-- The '(user is not None) and user.is_superuser' test. -/
def isSuperuser : Option User → Bool
  | some u => u.is_superuser
  | none => false

/-- Folder.isAllowed: access control disabled, or superuser, or the
folder id is a member of the (memoized) allowed-folders set.  The
Python 'or' short-circuits, so the cache is only consulted on the last
disjunct. -/
def Folder.isAllowed (g : Settings) (st : SysState) (f : Folder) (user : Option User)
    (action : Char) : Bool × SysState :=
  if !g.accessControlEnabled then (true, st)
  else if isSuperuser user then (true, st)
  else
    let (s, st') := getAllowedFolders g st user action
    (decide (f.id ∈ s), st')

/-- Folder.isAllowed specialised to the cache-disabled configuration,
in which getWithCache falls through to the uncached computation and
the state is untouched: a pure function of the database. -/
def isAllowedP (g : Settings) (db : Db) (f : Folder) (user : Option User) (action : Char) : Bool :=
  !g.accessControlEnabled || (isSuperuser user
    || decide (f.id ∈ getAllowedFoldersNoCache db user action))

/-- The Python exceptions this subsystem can raise, with the message
where a claim inspects it. -/
inductive PyErr where
  | permissionDenied (msg : String)
  | doesNotExist (msg : String)
  | integrityError
  | typeError
  | keyError
  | valueError
  deriving DecidableEq

/-- The user name displayed in denial messages: the username, or
'<anonymous>' when no user was supplied. -/
def userNameOf : Option User → String
  | none => "<anonymous>"
  | some u => u.username

/-- Folder.assertAllowed: no-op if isAllowed, otherwise
PermissionDenied with a message naming the user, the full action name
(ACTION_LOOKUP) and the folder name. -/
def Folder.assertAllowed (g : Settings) (st : SysState) (f : Folder) (user : Option User)
    (action : Char) : Except PyErr Unit × SysState :=
  let (b, st') := Folder.isAllowed g st f user action
  if b then (.ok (), st')
  else
    match ACTION_LOOKUP action with
    | some nm =>
      (.error (.permissionDenied ("user " ++ userNameOf user ++ " does not have " ++ nm
        ++ " permission for folder " ++ f.name)), st')
    | none => (.error .keyError, st')

/-- The error value Folder.assertAllowed produces on denial (the
KeyError branch is unreachable for valid action codes). -/
def permErrFor (user : Option User) (action : Char) (f : Folder) : Except PyErr Unit :=
  match ACTION_LOOKUP action with
  | some nm =>
    .error (.permissionDenied ("user " ++ userNameOf user ++ " does not have " ++ nm
      ++ " permission for folder " ++ f.name))
  | none => .error .keyError

/-- Folder.setPermissions restricted to a user agent: the empty actions
string deletes the (user, folder) rows; otherwise get_or_create the
row and overwrite its columns with setActions. -/
def setPermissionsUser (db : Db) (userId folderId : Nat) (actions : String) : Db :=
  if actions = "" then
    { db with userPerms := db.userPerms.filter (fun p => !(p.user == userId && p.folder == folderId)) }
  else if db.userPerms.any (fun p => p.user == userId && p.folder == folderId) then
    { db with userPerms := db.userPerms.map (fun p =>
        if p.user == userId && p.folder == folderId then { p with bits := PermBits.setActions actions }
        else p) }
  else
    { db with userPerms := db.userPerms ++
        [{ user := userId, folder := folderId, bits := PermBits.setActions actions }] }

/-- Folder.setPermissions restricted to a group agent. -/
def setPermissionsGroup (db : Db) (groupId folderId : Nat) (actions : String) : Db :=
  if actions = "" then
    { db with groupPerms := db.groupPerms.filter (fun p => !(p.group == groupId && p.folder == folderId)) }
  else if db.groupPerms.any (fun p => p.group == groupId && p.folder == folderId) then
    { db with groupPerms := db.groupPerms.map (fun p =>
        if p.group == groupId && p.folder == folderId then { p with bits := PermBits.setActions actions }
        else p) }
  else
    { db with groupPerms := db.groupPerms ++
        [{ group := groupId, folder := folderId, bits := PermBits.setActions actions }] }

/-- Folder.setPermissions: dispatch on the agent kind (string agents
are resolved to a User or Group before this point; the remaining
TypeError branch of the source is unreachable for this closed agent
type). -/
def Folder.setPermissions (db : Db) (f : Folder) (agent : Agent) (actions : String) : Db :=
  match agent with
  | .user u => setPermissionsUser db u.id f.id actions
  | .group gr => setPermissionsGroup db gr.id f.id actions

/-- Folder.clearAcl: delete every permission row of the folder. -/
def Folder.clearAcl (db : Db) (folderId : Nat) : Db :=
  { db with
    userPerms := db.userPerms.filter (fun p => !(p.folder == folderId))
    groupPerms := db.groupPerms.filter (fun p => !(p.folder == folderId)) }

/-- Folder.copyAcl: clear the destination folder's ACL, then for every
permission row of the source folder save a fresh row carrying
setActions(getActions(row)). -/
def Folder.copyAcl (db : Db) (destId srcId : Nat) : Db :=
  let db := Folder.clearAcl db destId
  { db with
    userPerms := db.userPerms ++
      (db.userPerms.filter (fun p => p.folder == srcId)).map (fun p =>
        { user := p.user, folder := destId, bits := PermBits.setActions p.bits.getActions })
    groupPerms := db.groupPerms ++
      (db.groupPerms.filter (fun p => p.folder == srcId)).map (fun p =>
        { group := p.group, folder := destId, bits := PermBits.setActions p.bits.getActions }) }

/-- Folder.save for a new subfolder row: flush the cache (every folder
save bumps FOLDER_CACHE_VERSION) and insert the row. -/
def saveNewFolder (st : SysState) (f : Folder) : SysState :=
  let st := flushCache st
  { st with db := { st.db with
      folders := st.db.folders ++ [f]
      nextFolderId := st.db.nextFolderId + 1 } }

/-- Folder.makeSubFolder: fail with the database's uniqueness error if
a child of the same name exists; otherwise create and save the child
(cache flush + insert), copy the parent's ACL onto it and, when an
admin agent is given, grant that agent Actions.ALL on the child. -/
def Folder.makeSubFolder (st : SysState) (self : Folder) (name : String) (admin : Option Agent) :
    Except PyErr (Folder × SysState) :=
  if st.db.folders.any (fun f => f.name == name && f.parent == some self.id) then
    .error .integrityError
  else
    let sub : Folder := { id := st.db.nextFolderId, name := name, parent := some self.id }
    let st := saveNewFolder st sub
    let st := { st with db := Folder.copyAcl st.db sub.id self.id }
    let st :=
      match admin with
      | some ag => { st with db := Folder.setPermissions st.db sub ag Actions.ALL }
      | none => st
    .ok (sub, st)

/-- One pass growing a set of folder ids by the children of its
members (used to compute the rows a cascading delete removes). -/
def expandDescendants (folders : List Folder) (s : List Nat) : List Nat :=
  s ++ (folders.filter (fun f =>
    (match f.parent with | some p => s.contains p | none => false) && !(s.contains f.id))).map
      (fun f => f.id)

/-- The ids of a folder and all folders below it. -/
def descendantIds (folders : List Folder) (rootId : Nat) : List Nat :=
  (expandDescendants folders)^[folders.length] [rootId]

/-- Folder.removeSubFolder: Folder.objects.get(name, parent).delete().
The get raises DoesNotExist when no such child exists; the delete
cascades over descendant folders and their permission rows.  Django's
delete does not call Folder.save, so the cache version is NOT bumped
here. -/
def Folder.removeSubFolder (st : SysState) (self : Folder) (name : String) :
    Except PyErr SysState :=
  match st.db.folders.find? (fun f => f.name == name && f.parent == some self.id) with
  | none => .error (.doesNotExist "Folder matching query does not exist")
  | some target =>
    let doomed := descendantIds st.db.folders target.id
    .ok { st with db := { st.db with
      folders := st.db.folders.filter (fun f => !(doomed.contains f.id))
      userPerms := st.db.userPerms.filter (fun p => !(doomed.contains p.folder))
      groupPerms := st.db.groupPerms.filter (fun p => !(doomed.contains p.folder)) } }

/-- First row of UserPermission matching (user, folder), as bits. -/
def findUserPerm (db : Db) (userId folderId : Nat) : Option PermBits :=
  (db.userPerms.find? (fun p => p.user == userId && p.folder == folderId)).map (fun p => p.bits)

/-- First row of GroupPermission matching (group, folder), as bits. -/
def findGroupPerm (db : Db) (groupId folderId : Nat) : Option PermBits :=
  (db.groupPerms.find? (fun p => p.group == groupId && p.folder == folderId)).map (fun p => p.bits)

/-- Modelled from the spec: listActionsFor (spec section 4.2), the ACL
Store query 'principal's action-set on a folder, NONE if absent'.  The
source under src has no single function for this; its closest reading
is the per-row filter in Folder.getAcl. -/
def listActionsFor (db : Db) (agent : Agent) (folderId : Nat) : String :=
  match agent with
  | .user u => ((findUserPerm db u.id folderId).map PermBits.getActions).getD ""
  | .group gr => ((findGroupPerm db gr.id folderId).map PermBits.getActions).getD ""

/-- Whether the store holds a permission row for (agent, folder). -/
def hasPermRow (db : Db) (agent : Agent) (folderId : Nat) : Bool :=
  match agent with
  | .user u => db.userPerms.any (fun p => p.user == u.id && p.folder == folderId)
  | .group gr => db.groupPerms.any (fun p => p.group == gr.id && p.folder == folderId)

/-- os.path.join for two POSIX paths: an absolute second argument wins;
otherwise concatenate, inserting '/' unless the first part is empty or
already ends in '/'. -/
def joinPath (a b : String) : String :=
  if b.startsWith "/" then b
  else if a = "" || a.endsWith "/" then a ++ b
  else a ++ "/" ++ b

/-- One step of posixpath.normpath's component scan: skip empty and
'.' components; append a component unless it is '..' cancelling a real
component (a '..' is kept at the front of a relative path or on top of
another '..'; it cancels otherwise, popping if anything is there). -/
def normpathStep (isAbs : Bool) (acc : List String) (comp : String) : List String :=
  if comp = "" || comp = "." then acc
  else if comp != ".." || (!isAbs && acc.isEmpty) || (acc.getLast? == some "..") then
    acc ++ [comp]
  else if !acc.isEmpty then acc.dropLast
  else acc

/-- posixpath.normpath: collapse '.', '..' and repeated slashes;
exactly two leading slashes are preserved (POSIX), one or three or
more collapse to one; an empty result becomes '.'. -/
def normpath (p : String) : String :=
  if p = "" then "."
  else
    let isAbs := p.startsWith "/"
    let twoSlashes := p.startsWith "//" && !(p.startsWith "///")
    let comps := p.splitOn "/"
    let newComps := comps.foldl (normpathStep isAbs) []
    let lead := if isAbs then (if twoSlashes then "//" else "/") else ""
    let r := lead ++ String.intercalate "/" newComps
    if r = "" then "." else r

/-- Child lookup in the folder tree snapshot: the subFolders mapping
built by _getFolderTreeNoCache sends a child name to the folder row
with that name and parent (unique by the (name, parent) constraint). -/
def childOf (db : Db) (parentId : Nat) (name : String) : Option Folder :=
  db.folders.find? (fun f => f.parent == some parentId && f.name == name)

/-- The PermissionDenied message of Folder.getFolder, naming the folder
that blocked listing (current.path), not the requested target. -/
def listDeniedMsg (path workingFolder username curPath : String) : String :=
  "while trying to access folder '" ++ path ++ "' from working folder '" ++ workingFolder
    ++ "': user " ++ username ++ " is not allowed to list folder '" ++ curPath ++ "'"

/-- The ObjectDoesNotExist message of Folder.getFolder, naming the
folder that could not be found. -/
def notFoundMsg (path workingFolder missingPath : String) : String :=
  "while trying to access folder '" ++ path ++ "' from working folder '" ++ workingFolder
    ++ "': folder '" ++ missingPath ++ "' does not exist"

/-- The per-segment loop of Folder.getFolder: starting from a current
folder annotated with its tree path, for each segment first check (if
a requesting user was supplied — None skips the check by Python
truthiness) that the user may LIST the current folder, then descend to
the named child.  Descending extends the path annotation exactly as
the tree builder does (current.path + '/' + child name). -/
def getFolderLoop (g : Settings) (path workingFolder : String) (user : Option User) :
    SysState → Folder → String → List String → Except PyErr Folder × SysState
  | st, cur, _, [] => (.ok cur, st)
  | st, cur, curPath, elt :: rest =>
    match user with
    | some u =>
      let (b, st') := Folder.isAllowed g st cur (some u) 'l'
      if b then
        match childOf st'.db cur.id elt with
        | some c => getFolderLoop g path workingFolder (some u) st' c (curPath ++ "/" ++ elt) rest
        | none =>
          (.error (.doesNotExist (notFoundMsg path workingFolder
            (normpath (joinPath curPath elt)))), st')
      else
        (.error (.permissionDenied (listDeniedMsg path workingFolder u.username curPath)), st')
    | none =>
      match childOf st.db cur.id elt with
      | some c => getFolderLoop g path workingFolder none st c (curPath ++ "/" ++ elt) rest
      | none =>
        (.error (.doesNotExist (notFoundMsg path workingFolder
          (normpath (joinPath curPath elt)))), st)

/-- Folder.getFolder: normalize the path against the working folder,
strip the first character, split into segments, require exactly one
parentless folder (the tree builder's '[root] = subFolderLookup[None]'
raises ValueError otherwise) and walk from the root, whose tree path
annotation is '/'. -/
def Folder.getFolder (g : Settings) (st : SysState) (path : String)
    (workingFolder : String := "/") (requestingUser : Option User := none) :
    Except PyErr Folder × SysState :=
  let absPath := (normpath (joinPath workingFolder path)).drop 1
  let elts := if absPath != "" then absPath.splitOn "/" else []
  match st.db.folders.filter (fun f => f.parent == none) with
  | [root] => getFolderLoop g path workingFolder requestingUser st root "/" elts
  | _ => (.error .valueError, st)

/-- The resource argument of the PermissionManager entry points: either
a Folder, or an object carrying a folders collection. -/
inductive PMObj where
  | folder (f : Folder)
  | member (folders : List Folder)
  deriving DecidableEq

/-- One step of the list comprehension
[folder.isAllowed(user, action) for folder in folders]: evaluate
isAllowed in the current state and append the boolean. -/
def isAllowedFoldStep (g : Settings) (user : Option User) (action : Char)
    (acc : List Bool × SysState) (f : Folder) : List Bool × SysState :=
  let r := Folder.isAllowed g acc.2 f user action
  (acc.1 ++ [r.1], r.2)

/-- PermissionManager.isAllowedByAnyFolder:
reduce(operator.or_, [folder.isAllowed(...) for folder in folders]).
The comprehension evaluates isAllowed on every folder (threading the
cache); reduce with no initial element raises TypeError on an empty
collection, modelled as none. -/
def PermissionManager.isAllowedByAnyFolder (g : Settings) (st : SysState) (folders : List Folder)
    (user : Option User) (action : Char) : Option Bool × SysState :=
  let r := folders.foldl (isAllowedFoldStep g user action) ([], st)
  match r.1 with
  | [] => (none, r.2)
  | b :: bs => (some (bs.foldl (fun x y => x || y) b), r.2)

/-- Python's '%s' rendering of the folders list in the denial message
of assertAllowedByAnyFolder (content irrelevant to the claims). -/
def reprFolders (folders : List Folder) : String :=
  "[" ++ String.intercalate ", " (folders.map (fun f => "<Folder: " ++ f.name ++ ">")) ++ "]"

/-- PermissionManager.assertAllowedByAnyFolder: no-op when the OR over
the folders is true; PermissionDenied naming the user, the action and
the folder list otherwise; the TypeError of an empty reduction
propagates. -/
def PermissionManager.assertAllowedByAnyFolder (g : Settings) (st : SysState)
    (folders : List Folder) (user : Option User) (action : Char) :
    Except PyErr Unit × SysState :=
  let (ob, st') := PermissionManager.isAllowedByAnyFolder g st folders user action
  match ob with
  | none => (.error .typeError, st')
  | some true => (.ok (), st')
  | some false =>
    match ACTION_LOOKUP action with
    | some nm =>
      (.error (.permissionDenied ("user " ++ userNameOf user ++ " does not have " ++ nm
        ++ " permission for any folder in " ++ reprFolders folders)), st')
    | none => (.error .keyError, st')

/-- PermissionManager.isAllowed: dispatch on the object kind (a Folder
directly, or the folders collection of a member object). -/
def PermissionManager.isAllowed (g : Settings) (st : SysState) (obj : PMObj)
    (user : Option User) (action : Char) : Option Bool × SysState :=
  match obj with
  | .folder f =>
    let (b, st') := Folder.isAllowed g st f user action
    (some b, st')
  | .member folders => PermissionManager.isAllowedByAnyFolder g st folders user action

/-- PermissionManager.assertAllowed: same dispatch for the asserting
variants. -/
def PermissionManager.assertAllowed (g : Settings) (st : SysState) (obj : PMObj)
    (user : Option User) (action : Char) : Except PyErr Unit × SysState :=
  match obj with
  | .folder f => Folder.assertAllowed g st f user action
  | .member folders => PermissionManager.assertAllowedByAnyFolder g st folders user action

/-- The error value assertAllowedByAnyFolder produces on denial. -/
def anyDeniedErrFor (user : Option User) (action : Char) (folders : List Folder) :
    Except PyErr Unit :=
  match ACTION_LOOKUP action with
  | some nm =>
    .error (.permissionDenied ("user " ++ userNameOf user ++ " does not have " ++ nm
      ++ " permission for any folder in " ++ reprFolders folders))
  | none => .error .keyError

/-- The 'for f in folders: if f.id not in excluded: f.assertAllowed'
loops of assertFolderChangeAllowed, stopping at the first denial. -/
def assertEachNotIn (g : Settings) :
    SysState → List Folder → List Nat → Option User → Char → Except PyErr Unit × SysState
  | st, [], _, _, _ => (.ok (), st)
  | st, f :: fs, excludedIds, user, action =>
    if excludedIds.contains f.id then assertEachNotIn g st fs excludedIds user action
    else
      match Folder.assertAllowed g st f user action with
      | (.ok _, st') => assertEachNotIn g st' fs excludedIds user action
      | (.error e, st') => (.error e, st')

/-- PermissionManager.assertFolderChangeAllowed: if the object already
belonged to folders, the user must hold ADMIN on at least one of them;
then INSERT is required on every folder being added (id not among the
old ids) and DELETE on every folder being removed (id not among the
new ids). -/
def PermissionManager.assertFolderChangeAllowed (g : Settings) (st : SysState)
    (user : Option User) (oldFolders newFolders : List Folder) :
    Except PyErr Unit × SysState :=
  let step1 : Except PyErr Unit × SysState :=
    if oldFolders.isEmpty then (.ok (), st)
    else PermissionManager.assertAllowedByAnyFolder g st oldFolders user 'a'
  match step1 with
  | (.error e, st') => (.error e, st')
  | (.ok _, st') =>
    match assertEachNotIn g st' newFolders (oldFolders.map (fun f => f.id)) user 'i' with
    | (.error e, st'') => (.error e, st'')
    | (.ok _, st'') => assertEachNotIn g st'' oldFolders (newFolders.map (fun f => f.id)) user 'd'

/-- The getFolder walk denies with a given blocked-folder path: the
listability oracle L rejects the current folder while segments remain
(the check precedes the descent), or the current folder is listable,
the next child exists, and the denial arises deeper.  By construction
the named path is that of the FIRST folder failing L along the walk. -/
inductive WalkDenied (db : Db) (L : Folder → Bool) :
    Folder → String → List String → String → Prop
  | here {cur : Folder} {curPath elt : String} {rest : List String}
      (h : L cur = false) :
      WalkDenied db L cur curPath (elt :: rest) curPath
  | there {cur c : Folder} {curPath elt p : String} {rest : List String}
      (h : L cur = true) (hch : childOf db cur.id elt = some c)
      (ht : WalkDenied db L c (curPath ++ "/" ++ elt) rest p) :
      WalkDenied db L cur curPath (elt :: rest) p

/-- The getFolder walk fails with a not-found path: every folder down
to the failure point passes the listability oracle, and the failing
segment names no child of the folder reached; the reported path is
normpath(reached folder's path + '/' + missing segment). -/
inductive WalkNotFound (db : Db) (L : Folder → Bool) :
    Folder → String → List String → String → Prop
  | here {cur : Folder} {curPath elt : String} {rest : List String}
      (h : L cur = true) (hch : childOf db cur.id elt = none) :
      WalkNotFound db L cur curPath (elt :: rest) (normpath (joinPath curPath elt))
  | there {cur c : Folder} {curPath elt p : String} {rest : List String}
      (h : L cur = true) (hch : childOf db cur.id elt = some c)
      (ht : WalkNotFound db L c (curPath ++ "/" ++ elt) rest p) :
      WalkNotFound db L cur curPath (elt :: rest) p

/-- The error behaviour claimed for path resolution with a supplied
principal: a PermissionDenied outcome names exactly the path of the
first folder along the walk that the principal may not list, and an
ObjectDoesNotExist outcome names exactly the missing child of the
folder reached after only listable folders. -/
def WalkSpec (g : Settings) (st : SysState) (path wf : String) (u : User) (cur : Folder)
    (curPath : String) (elts : List String) : Prop :=
  (∀ m, (getFolderLoop g path wf (some u) st cur curPath elts).1 = .error (.permissionDenied m) ↔
    ∃ p, WalkDenied st.db (fun f => isAllowedP g st.db f (some u) 'l') cur curPath elts p
      ∧ m = listDeniedMsg path wf u.username p)
  ∧ (∀ m, (getFolderLoop g path wf (some u) st cur curPath elts).1 = .error (.doesNotExist m) ↔
    ∃ p, WalkNotFound st.db (fun f => isAllowedP g st.db f (some u) 'l') cur curPath elts p
      ∧ m = notFoundMsg path wf p)

/-- The success condition claimed for assertFolderChangeAllowed: it
returns normally exactly when (1) a non-empty old collection contains
a folder on which the user holds ADMIN, (2) the user holds INSERT on
every newly added folder and (3) DELETE on every removed folder. -/
def FolderChangeOkIff (g : Settings) (st : SysState) (user : Option User)
    (oldFolders newFolders : List Folder) : Prop :=
  (PermissionManager.assertFolderChangeAllowed g st user oldFolders newFolders).1 = .ok () ↔
    ((oldFolders ≠ [] → ∃ f ∈ oldFolders, isAllowedP g st.db f user 'a' = true)
      ∧ (∀ f ∈ newFolders, f.id ∉ oldFolders.map (fun f2 => f2.id) →
          isAllowedP g st.db f user 'i' = true)
      ∧ (∀ f ∈ oldFolders, f.id ∉ newFolders.map (fun f2 => f2.id) →
          isAllowedP g st.db f user 'd' = true))

/-- What holds of the child and the state after makeSubFolder with an
initial admin user: every user grant of the parent for another user is
copied unchanged to the child, every group grant of the parent is
copied unchanged, the admin's grant on the child is Actions.ALL, and
the child is in the admin's allowed set for ADMIN. -/
def MakeSubFolderPost (g : Settings) (st : SysState) (self : Folder) (admin : User)
    (sub : Folder) (st' : SysState) : Prop :=
  (∀ p ∈ st.db.userPerms, p.folder = self.id → p.user ≠ admin.id →
      ({ user := p.user, folder := sub.id, bits := p.bits } : UserPermission) ∈ st'.db.userPerms)
  ∧ (∀ p ∈ st.db.groupPerms, p.folder = self.id →
      ({ group := p.group, folder := sub.id, bits := p.bits } : GroupPermission)
        ∈ st'.db.groupPerms)
  ∧ findUserPerm st'.db admin.id sub.id = some (PermBits.setActions Actions.ALL)
  ∧ isAllowedP g st'.db sub (some admin) 'a' = true

/-- The cache-disabled configuration (access control on). -/
def noCacheSettings : Settings :=
  { accessControlEnabled := true, folderCacheEnabled := false, folderCacheTimeoutSeconds := 30 }

/-- Example active non-superuser user. -/
def alice : User := { id := 10, username := "alice", is_active := true, is_superuser := false, groups := [] }

/-- Example superuser. -/
def sally : User := { id := 11, username := "sally", is_active := true, is_superuser := true, groups := [] }

/-- Example inactive user with a group membership. -/
def ivan : User := { id := 12, username := "ivan", is_active := false, is_superuser := false, groups := [7] }

/-- Example root folder. -/
def exRoot : Folder := { id := 1, name := "root", parent := none }

/-- Example world for the ancestor-listability claim: a chain
root -> p -> f, alice granted INSERT on f and nothing else anywhere. -/
def c1Parent : Folder := { id := 2, name := "p", parent := some 1 }

/-- The deeply nested folder on which alice holds INSERT. -/
def c1F : Folder := { id := 3, name := "f", parent := some 2 }

/-- Database for that world. -/
def c1Db : Db :=
  { folders := [exRoot, c1Parent, c1F]
    userPerms := [{ user := 10, folder := 3, bits := PermBits.setActions "i" }]
    groupPerms := []
    nextFolderId := 4 }

/-- State for that world: fresh cache at version 1. -/
def c1St : SysState := { db := c1Db, cacheVersion := 1, afCache := [] }

/-- Example world for the cache-coherence claim: a root with one child
that the ANY_USER group may read. -/
def c2Child : Folder := { id := 2, name := "c", parent := some 1 }

/-- Database for the cache world. -/
def c2Db : Db :=
  { folders := [exRoot, c2Child]
    userPerms := []
    groupPerms := [{ group := 1, folder := 2, bits := PermBits.setActions "r" }]
    nextFolderId := 3 }

/-- Initial state of the cache scenario. -/
def c2St0 : SysState := { db := c2Db, cacheVersion := 1, afCache := [] }

/-- State after the first (caching) read of the allowed set. -/
def c2St1 : SysState := (getAllowedFolders defaultSettings c2St0 none 'r').2

/-- Example world for assertFolderChangeAllowed: alice holds ADMIN on
one folder, INSERT on another, DELETE on a third. -/
def fAdm : Folder := { id := 2, name := "adm", parent := some 1 }

/-- Folder on which alice holds INSERT. -/
def fIns : Folder := { id := 3, name := "ins", parent := some 1 }

/-- Folder on which alice holds DELETE. -/
def fDel : Folder := { id := 4, name := "del", parent := some 1 }

/-- Database for the folder-change world. -/
def c3Db : Db :=
  { folders := [exRoot, fAdm, fIns, fDel]
    userPerms := [{ user := 10, folder := 2, bits := PermBits.setActions "a" },
      { user := 10, folder := 3, bits := PermBits.setActions "i" },
      { user := 10, folder := 4, bits := PermBits.setActions "d" }]
    groupPerms := []
    nextFolderId := 5 }

/-- State for the folder-change world. -/
def c3St : SysState := { db := c3Db, cacheVersion := 1, afCache := [] }

/-- Example world for path resolution: root -> a -> b, alice may LIST
the root but not folder a. -/
def c5A : Folder := { id := 2, name := "a", parent := some 1 }

/-- Deeper folder under a. -/
def c5B : Folder := { id := 3, name := "b", parent := some 2 }

/-- Database for the path-resolution world. -/
def c5Db : Db :=
  { folders := [exRoot, c5A, c5B]
    userPerms := [{ user := 10, folder := 1, bits := PermBits.setActions "l" }]
    groupPerms := []
    nextFolderId := 4 }

/-- State for the path-resolution world. -/
def c5St : SysState := { db := c5Db, cacheVersion := 1, afCache := [] }

/-- A second example user whose grant on the parent must survive
subfolder creation unchanged. -/
def bob : User := { id := 20, username := "bob", is_active := true, is_superuser := false, groups := [] }

/-- Example world for ACL inheritance: the parent grants alice READ
(so the initial-admin regrant overwrites it) and bob WRITE. -/
def c8Db : Db :=
  { folders := [exRoot]
    userPerms := [{ user := 10, folder := 1, bits := PermBits.setActions "rl" },
      { user := 20, folder := 1, bits := PermBits.setActions "rlidc" }]
    groupPerms := [{ group := 5, folder := 1, bits := PermBits.setActions "rl" }]
    nextFolderId := 2 }

/-- State for the ACL-inheritance world. -/
def c8St : SysState := { db := c8Db, cacheVersion := 1, afCache := [] }

/-- The (child, state) result of the ACL-inheritance scenario (the
error branch is unreachable: the root has no child named x). -/
def c8Res : Folder × SysState :=
  match Folder.makeSubFolder c8St exRoot "x" (some (.user alice)) with
  | .ok r => r
  | .error _ => (exRoot, c8St)

/-- Example world for the inactive-user claim: grants to ANY_USER,
AUTH_USER, directly to ivan, and to ivan's group. -/
def c9Db : Db :=
  { folders := [exRoot, c1Parent, c1F]
    userPerms := [{ user := 12, folder := 3, bits := PermBits.setActions "rl" }]
    groupPerms := [{ group := 1, folder := 1, bits := PermBits.setActions "rl" },
      { group := 2, folder := 2, bits := PermBits.setActions "rl" },
      { group := 7, folder := 3, bits := PermBits.setActions "rl" }]
    nextFolderId := 4 }

deriving instance DecidableEq for Except

theorem isAllowed_cacheDisabled (g : Settings) (st : SysState) (f : Folder) (user : Option User)
    (action : Char) (hc : g.folderCacheEnabled = false) :
    Folder.isAllowed g st f user action = (isAllowedP g st.db f user action, st) := by
  unfold Folder.isAllowed isAllowedP getAllowedFolders
  rw [hc]
  cases hac : g.accessControlEnabled <;> cases hsu : isSuperuser user <;> simp

theorem assertAllowed_cacheDisabled (g : Settings) (st : SysState) (f : Folder)
    (user : Option User) (action : Char) (hc : g.folderCacheEnabled = false) :
    Folder.assertAllowed g st f user action =
      ((if isAllowedP g st.db f user action then .ok () else permErrFor user action f), st) := by
  unfold Folder.assertAllowed
  rw [isAllowed_cacheDisabled g st f user action hc]
  cases h : isAllowedP g st.db f user action <;>
    cases hl : ACTION_LOOKUP action <;> simp [h, hl, permErrFor]

theorem permErrFor_ne_ok (user : Option User) (action : Char) (f : Folder) :
    permErrFor user action f ≠ .ok () := by
  unfold permErrFor
  cases ACTION_LOOKUP action <;> simp

theorem setActions_getActions (b : PermBits) :
    PermBits.setActions b.getActions = b := by
  obtain ⟨r, l, i, d, c, a⟩ := b
  cases r <;> cases l <;> cases i <;> cases d <;> cases c <;> cases a <;> decide

/-- C1 counterexample: with access control enabled, the non-superuser
alice holds INSERT on the nested folder f but cannot LIST anything (in
particular not f's parent p), yet isAllowed(alice, f, INSERT) returns
true — the claim says it must return false. -/
theorem C1_insert_without_parent_list_counterexample :
    defaultSettings.accessControlEnabled = true
    ∧ alice.is_superuser = false
    ∧ c1F.parent = some c1Parent.id
    ∧ findUserPerm c1Db alice.id c1F.id = some (PermBits.setActions "i")
    ∧ getAllowedFoldersNoCache c1Db (some alice) 'l' = ∅
    ∧ (Folder.isAllowed defaultSettings c1St c1F (some alice) 'i').1 = true := by
  decide

/-- C1 amended: membership of the folder in the principal's LOCAL
allowed set (its direct and group grants for the action) alone makes
isAllowed return true — the implementation imposes no listability
requirement on the parent or any other ancestor for any action. -/
theorem C1_local_grant_suffices (g : Settings) (st : SysState) (f : Folder) (user : Option User)
    (a : Char) (hc : g.folderCacheEnabled = false)
    (h : f.id ∈ getAllowedFoldersNoCache st.db user a) :
    (Folder.isAllowed g st f user a).1 = true := by
  rw [isAllowed_cacheDisabled g st f user a hc]
  simp [isAllowedP, h]

/-- C1 amended witness: the scenario of the counterexample run through
the amended theorem. -/
theorem C1_local_grant_suffices_witness :
    c1F.id ∈ getAllowedFoldersNoCache c1St.db (some alice) 'i'
    ∧ (Folder.isAllowed noCacheSettings c1St c1F (some alice) 'i').1 = true :=
  ⟨by decide, C1_local_grant_suffices noCacheSettings c1St c1F (some alice) 'i' rfl (by decide)⟩

/-- C2: the first read caches the whole allowed set {2}; deleting the
only child folder (removeSubFolder, which never calls flushCache) does
not bump the cache version, so the second read within the TTL window
returns the stale set {2} although recomputing from the database now
yields the empty set — the claim requires the second read to reflect
the deletion regardless of TTL. -/
theorem C2_delete_leaves_stale_cache :
    (getAllowedFolders defaultSettings c2St0 none 'r').1 = {2}
    ∧ (Folder.removeSubFolder c2St1 exRoot "c").map (fun st2 =>
        ((getAllowedFolders defaultSettings st2 none 'r').1,
          getAllowedFoldersNoCache st2.db none 'r', st2.cacheVersion))
      = .ok ({2}, ∅, c2St0.cacheVersion) := by
  decide

/-- C4: for a user whose superuser flag is set, isAllowed returns true
for every folder, action, permission table and settings value. -/
theorem C4_superuser_bypass (g : Settings) (st : SysState) (f : Folder) (u : User) (a : Char)
    (h : u.is_superuser = true) :
    (Folder.isAllowed g st f (some u) a).1 = true := by
  unfold Folder.isAllowed
  split
  · rfl
  · simp [isSuperuser, h]

/-- C4 witness: the superuser sally is allowed DELETE on a folder on
which she holds no grant at all. -/
theorem C4_superuser_bypass_witness :
    sally.is_superuser = true
    ∧ (Folder.isAllowed defaultSettings c1St c1F (some sally) 'd').1 = true :=
  ⟨rfl, C4_superuser_bypass defaultSettings c1St c1F sally 'd' rfl⟩

theorem setPermissions_user_none (db : Db) (f : Folder) (u : User) :
    Folder.setPermissions db f (.user u) Actions.NONE =
      { db with userPerms := db.userPerms.filter (fun p => !(p.user == u.id && p.folder == f.id)) } := by
  simp [Folder.setPermissions, setPermissionsUser, Actions.NONE]

theorem setPermissions_group_none (db : Db) (f : Folder) (gr : Group) :
    Folder.setPermissions db f (.group gr) Actions.NONE =
      { db with groupPerms := db.groupPerms.filter (fun p => !(p.group == gr.id && p.folder == f.id)) } := by
  simp [Folder.setPermissions, setPermissionsGroup, Actions.NONE]

/-- C7: granting the empty action-set deletes the (principal, folder)
permission rows, so the store has no row for the pair, a query of the
principal's actions on the folder yields the empty set, and repeating
the empty grant leaves the database unchanged. -/
theorem C7_empty_grant_idempotent (db : Db) (agent : Agent) (f : Folder) :
    hasPermRow (Folder.setPermissions db f agent Actions.NONE) agent f.id = false
    ∧ listActionsFor (Folder.setPermissions db f agent Actions.NONE) agent f.id = ""
    ∧ Folder.setPermissions (Folder.setPermissions db f agent Actions.NONE) f agent Actions.NONE
        = Folder.setPermissions db f agent Actions.NONE := by
  cases agent with
  | user u =>
    simp only [setPermissions_user_none]
    have hf : (db.userPerms.filter (fun p => !(p.user == u.id && p.folder == f.id))).find?
        (fun p => p.user == u.id && p.folder == f.id) = none := by
      rw [List.find?_eq_none]
      intro p hp
      rw [List.mem_filter] at hp
      have h2 := hp.2
      rw [Bool.not_eq_true'] at h2
      simp [h2]
    refine ⟨?_, ?_, ?_⟩
    · simp only [hasPermRow]
      rw [List.any_eq_false]
      intro p hp
      rw [List.mem_filter] at hp
      have h2 := hp.2
      rw [Bool.not_eq_true'] at h2
      simp [h2]
    · simp only [listActionsFor, findUserPerm]
      rw [hf]
      rfl
    · rw [List.filter_filter]
      simp [Bool.and_self]
  | group gr =>
    simp only [setPermissions_group_none]
    have hf : (db.groupPerms.filter (fun p => !(p.group == gr.id && p.folder == f.id))).find?
        (fun p => p.group == gr.id && p.folder == f.id) = none := by
      rw [List.find?_eq_none]
      intro p hp
      rw [List.mem_filter] at hp
      have h2 := hp.2
      rw [Bool.not_eq_true'] at h2
      simp [h2]
    refine ⟨?_, ?_, ?_⟩
    · simp only [hasPermRow]
      rw [List.any_eq_false]
      intro p hp
      rw [List.mem_filter] at hp
      have h2 := hp.2
      rw [Bool.not_eq_true'] at h2
      simp [h2]
    · simp only [listActionsFor, findGroupPerm]
      rw [hf]
      rfl
    · rw [List.filter_filter]
      simp [Bool.and_self]

/-- C9: an inactive user's allowed-folders computation coincides with
the anonymous one — only ANY_USER grants contribute — and for an
inactive non-superuser the pure isAllowed decision coincides with the
anonymous decision on every folder and action. -/
theorem C9_inactive_as_anonymous (g : Settings) (db : Db) (u : User) (a : Char) (f : Folder)
    (h : u.is_active = false) (hs : u.is_superuser = false) :
    getAllowedFoldersNoCache db (some u) a = getAllowedFoldersNoCache db none a
    ∧ getAllowedFoldersNoCache db none a = addGroupAllowedFolders db GROUP_ANYUSER_ID a
    ∧ isAllowedP g db f (some u) a = isAllowedP g db f none a := by
  have h1 : getAllowedFoldersNoCache db (some u) a = getAllowedFoldersNoCache db none a := by
    unfold getAllowedFoldersNoCache
    simp [h]
  refine ⟨h1, rfl, ?_⟩
  unfold isAllowedP
  rw [h1]
  simp [isSuperuser, hs]

/-- C9 witness: ivan is inactive; although the tables grant folders to
ivan directly, to his group and to AUTH_USER, his allowed set equals
the anonymous one. -/
theorem C9_inactive_as_anonymous_witness :
    ivan.is_active = false
    ∧ getAllowedFoldersNoCache c9Db (some ivan) 'r' = getAllowedFoldersNoCache c9Db none 'r' :=
  ⟨rfl, (C9_inactive_as_anonymous defaultSettings c9Db ivan 'r' exRoot rfl rfl).1⟩

/-- C10: on an empty folder collection isAllowedByAnyFolder produces
no boolean at all (the reduce of an empty sequence raises TypeError,
modelled as none), and the PermissionManager isAllowed/assertAllowed
entry points on a member object with no folders propagate that error
instead of deciding deny. -/
theorem C10_empty_folders_no_decision (g : Settings) (st : SysState) (user : Option User)
    (a : Char) :
    (PermissionManager.isAllowedByAnyFolder g st [] user a).1 = none
    ∧ (PermissionManager.isAllowed g st (.member []) user a).1 = none
    ∧ (PermissionManager.assertAllowed g st (.member []) user a).1 = .error .typeError :=
  ⟨rfl, rfl, rfl⟩

theorem foldl_isAllowedFoldStep (g : Settings) (st : SysState) (u : Option User) (a : Char)
    (hc : g.folderCacheEnabled = false) :
    ∀ (folders : List Folder) (l : List Bool),
      List.foldl (isAllowedFoldStep g u a) (l, st) folders
        = (l ++ folders.map (fun f => isAllowedP g st.db f u a), st) := by
  intro folders
  induction folders with
  | nil => intro l; simp
  | cons f fs ih =>
    intro l
    rw [List.foldl_cons]
    have hstep : isAllowedFoldStep g u a (l, st) f = (l ++ [isAllowedP g st.db f u a], st) := by
      unfold isAllowedFoldStep
      rw [isAllowed_cacheDisabled g st f u a hc]
    rw [hstep, ih]
    simp

theorem any_map_self (fs : List Folder) (p : Folder → Bool) :
    (fs.map p).any (fun x => x) = fs.any p := by
  induction fs with
  | nil => rfl
  | cons f l ih => simp [List.any_cons, ih]

theorem foldl_or_eq_any (bs : List Bool) (b : Bool) :
    List.foldl (fun x y => x || y) b bs = (b || bs.any (fun x => x)) := by
  induction bs generalizing b with
  | nil => simp
  | cons c cs ih =>
    rw [List.foldl_cons, ih (b || c)]
    simp [Bool.or_assoc]

theorem isAllowedByAnyFolder_cons (g : Settings) (st : SysState) (u : Option User) (a : Char)
    (hc : g.folderCacheEnabled = false) (f0 : Folder) (fs : List Folder) :
    PermissionManager.isAllowedByAnyFolder g st (f0 :: fs) u a =
      (some ((f0 :: fs).any (fun f => isAllowedP g st.db f u a)), st) := by
  unfold PermissionManager.isAllowedByAnyFolder
  rw [foldl_isAllowedFoldStep g st u a hc (f0 :: fs) []]
  simp [foldl_or_eq_any, any_map_self]

theorem assertAllowedByAnyFolder_cons (g : Settings) (st : SysState) (u : Option User) (a : Char)
    (hc : g.folderCacheEnabled = false) (f0 : Folder) (fs : List Folder) :
    PermissionManager.assertAllowedByAnyFolder g st (f0 :: fs) u a =
      ((if (f0 :: fs).any (fun f => isAllowedP g st.db f u a) then .ok ()
        else anyDeniedErrFor u a (f0 :: fs)), st) := by
  unfold PermissionManager.assertAllowedByAnyFolder
  rw [isAllowedByAnyFolder_cons g st u a hc f0 fs]
  cases h : (f0 :: fs).any (fun f => isAllowedP g st.db f u a) <;>
    cases hl : ACTION_LOOKUP a <;> simp [h, hl, anyDeniedErrFor]

theorem anyDeniedErrFor_is_error (user : Option User) (action : Char) (folders : List Folder) :
    ∃ e, anyDeniedErrFor user action folders = .error e := by
  unfold anyDeniedErrFor
  cases ACTION_LOOKUP action <;> exact ⟨_, rfl⟩

theorem permErrFor_is_error (user : Option User) (action : Char) (f : Folder) :
    ∃ e, permErrFor user action f = .error e := by
  unfold permErrFor
  cases ACTION_LOOKUP action <;> exact ⟨_, rfl⟩

theorem assertEachNotIn_cacheDisabled (g : Settings) (st : SysState) (u : Option User) (a : Char)
    (hc : g.folderCacheEnabled = false) (ex : List Nat) :
    ∀ fs : List Folder,
      (assertEachNotIn g st fs ex u a).2 = st
      ∧ ((assertEachNotIn g st fs ex u a).1 = .ok ()
          ↔ ∀ f ∈ fs, f.id ∉ ex → isAllowedP g st.db f u a = true) := by
  intro fs
  induction fs with
  | nil => exact ⟨rfl, by simp [assertEachNotIn]⟩
  | cons f fs ih =>
    rw [assertEachNotIn]
    by_cases hmem : f.id ∈ ex
    · have hcond : ex.contains f.id = true := by simpa using hmem
      rw [hcond, if_pos rfl]
      refine ⟨ih.1, ?_⟩
      rw [ih.2]
      simp [List.forall_mem_cons, hmem]
    · have hcond : ex.contains f.id = false := by simpa using hmem
      rw [hcond, if_neg (by simp)]
      rw [assertAllowed_cacheDisabled g st f u a hc]
      cases hall : isAllowedP g st.db f u a
      · obtain ⟨e, he⟩ := permErrFor_is_error u a f
        rw [if_neg (by simp), he]
        refine ⟨rfl, ?_⟩
        constructor
        · intro h
          simp at h
        · intro h
          have hfa := h f (List.mem_cons_self f fs) hmem
          rw [hall] at hfa
          simp at hfa
      · rw [if_pos rfl]
        refine ⟨ih.1, ?_⟩
        rw [ih.2]
        simp [List.forall_mem_cons, hall]

/-- C3: assertFolderChangeAllowed succeeds exactly when (1) a
non-empty old folder collection contains a folder on which the
principal holds ADMIN, (2) the principal holds INSERT on every folder
newly added (id not among the old ids) and (3) DELETE on every folder
removed (id not among the new ids); an empty old collection skips the
ADMIN requirement. -/
theorem C3_assertFolderChangeAllowed_ok_iff (g : Settings) (st : SysState) (user : Option User)
    (oldFolders newFolders : List Folder) (hc : g.folderCacheEnabled = false) :
    FolderChangeOkIff g st user oldFolders newFolders := by
  unfold FolderChangeOkIff PermissionManager.assertFolderChangeAllowed
  cases oldFolders with
  | nil =>
    have hcond : (([] : List Folder).isEmpty = true) := rfl
    rw [if_pos hcond]
    simp only [List.map_nil]
    cases hr1 : assertEachNotIn g st newFolders [] user 'i' with
    | mk r1 st1 =>
      obtain ⟨hi2, hiiff⟩ := assertEachNotIn_cacheDisabled g st user 'i' hc [] newFolders
      rw [hr1] at hi2 hiiff
      simp only at hi2 hiiff
      subst st1
      cases r1 with
      | error e =>
        constructor
        · intro h
          simp at h
        · rintro ⟨-, hPi, -⟩
          exact absurd (hiiff.mpr hPi) (by simp)
      | ok v =>
        cases v
        constructor
        · intro _
          exact ⟨by simp, hiiff.mp rfl, by simp⟩
        · intro _
          simp [assertEachNotIn]
  | cons o os =>
    rw [if_neg (by simp)]
    rw [assertAllowedByAnyFolder_cons g st user 'a' hc o os]
    cases hadm : (o :: os).any (fun f => isAllowedP g st.db f user 'a')
    · obtain ⟨e, he⟩ := anyDeniedErrFor_is_error user 'a' (o :: os)
      rw [if_neg (by simp), he]
      constructor
      · intro h
        simp at h
      · rintro ⟨hadmP, -, -⟩
        obtain ⟨x, hx, hp⟩ := hadmP (by simp)
        have hany : (o :: os).any (fun f => isAllowedP g st.db f user 'a') = true :=
          List.any_eq_true.mpr ⟨x, hx, hp⟩
        rw [hadm] at hany
        simp at hany
    · rw [if_pos rfl]
      simp only [List.map_cons]
      cases hr1 : assertEachNotIn g st newFolders (o.id :: List.map (fun f => f.id) os)
          user 'i' with
      | mk r1 st1 =>
        obtain ⟨hi2, hiiff⟩ := assertEachNotIn_cacheDisabled g st user 'i' hc
          (o.id :: List.map (fun f => f.id) os) newFolders
        rw [hr1] at hi2 hiiff
        simp only at hi2 hiiff
        subst st1
        cases r1 with
        | error e =>
          constructor
          · intro h
            simp at h
          · rintro ⟨-, hPi, -⟩
            exact absurd (hiiff.mpr hPi) (by simp)
        | ok v =>
          cases v
          obtain ⟨hd2, hdiff⟩ := assertEachNotIn_cacheDisabled g st user 'd' hc
            (List.map (fun f => f.id) newFolders) (o :: os)
          constructor
          · intro h
            refine ⟨fun _ => List.any_eq_true.mp hadm, hiiff.mp rfl, ?_⟩
            apply hdiff.mp
            exact h
          · rintro ⟨-, -, hPd⟩
            exact hdiff.mpr hPd

/-- C6: assertAllowed raises exactly when isAllowed is false, the
error message carries the principal's display name ('<anonymous>' for
an absent principal), the full action name and the folder name, and
the state is returned unchanged (in particular no database change). -/
theorem C6_assertAllowed_spec (g : Settings) (st : SysState) (f : Folder) (user : Option User)
    (a : Char) (nm : String) (ha : ACTION_LOOKUP a = some nm) (hc : g.folderCacheEnabled = false) :
    Folder.assertAllowed g st f user a =
      ((if isAllowedP g st.db f user a then .ok ()
        else .error (.permissionDenied ("user " ++ userNameOf user ++ " does not have " ++ nm
          ++ " permission for folder " ++ f.name))), st) := by
  rw [assertAllowed_cacheDisabled g st f user a hc]
  unfold permErrFor
  rw [ha]

/-- C6 witness: alice asked for ADMIN on a folder where she holds only
INSERT; the error names alice, the action 'admin' and the folder. -/
theorem C6_assertAllowed_spec_witness :
    ACTION_LOOKUP 'a' = some "admin"
    ∧ Folder.assertAllowed noCacheSettings c1St c1F (some alice) 'a' =
      ((if isAllowedP noCacheSettings c1St.db c1F (some alice) 'a' then .ok ()
        else .error (.permissionDenied ("user " ++ userNameOf (some alice) ++ " does not have "
          ++ "admin" ++ " permission for folder " ++ c1F.name))), c1St) :=
  ⟨rfl, C6_assertAllowed_spec noCacheSettings c1St c1F (some alice) 'a' "admin" rfl rfl⟩

/-- C3 witness: alice, holding ADMIN on adm, INSERT on ins and DELETE
on del, moves an object from folders [adm, del] to folders [adm, ins]. -/
theorem C3_assertFolderChangeAllowed_ok_iff_witness :
    FolderChangeOkIff noCacheSettings c3St (some alice) [fAdm, fDel] [fAdm, fIns] :=
  C3_assertFolderChangeAllowed_ok_iff noCacheSettings c3St (some alice) [fAdm, fDel]
    [fAdm, fIns] rfl

/-- C5: for path resolution with a supplied principal, a
PermissionDenied outcome of the walk names exactly the path of the
first folder along the walk that the principal may not LIST (never the
requested target), and an ObjectDoesNotExist outcome names exactly the
missing child of the folder reached after listable folders only; each
error form occurs precisely in those situations. -/
theorem C5_getFolder_error_naming (g : Settings) (st : SysState) (path wf : String) (u : User)
    (elts : List String) (cur : Folder) (curPath : String)
    (hc : g.folderCacheEnabled = false) :
    WalkSpec g st path wf u cur curPath elts := by
  induction elts generalizing cur curPath with
  | nil =>
    refine ⟨fun m => ⟨fun h => ?_, fun hex => ?_⟩, fun m => ⟨fun h => ?_, fun hex => ?_⟩⟩
    · exact absurd h (by simp [getFolderLoop])
    · obtain ⟨p, hw, -⟩ := hex
      cases hw
    · exact absurd h (by simp [getFolderLoop])
    · obtain ⟨p, hw, -⟩ := hex
      cases hw
  | cons e rest ih =>
    have hb := isAllowed_cacheDisabled g st cur (some u) 'l' hc
    cases hV : isAllowedP g st.db cur (some u) 'l' with
    | false =>
      have hloop : getFolderLoop g path wf (some u) st cur curPath (e :: rest) =
          (.error (.permissionDenied (listDeniedMsg path wf u.username curPath)), st) := by
        simp only [getFolderLoop]
        rw [hb]
        simp [hV]
      unfold WalkSpec
      rw [hloop]
      constructor
      · intro m
        constructor
        · intro h
          simp only at h
          refine ⟨curPath, WalkDenied.here hV, ?_⟩
          simpa using h.symm
        · rintro ⟨p, hw, hm⟩
          cases hw with
          | here hL =>
            subst hm
            rfl
          | there hL hch ht =>
            rw [hV] at hL
            simp at hL
      · intro m
        constructor
        · intro h
          simp at h
        · rintro ⟨p, hw, hm⟩
          cases hw with
          | here hL hch =>
            rw [hV] at hL
            simp at hL
          | there hL hch ht =>
            rw [hV] at hL
            simp at hL
    | true =>
      cases hch : childOf st.db cur.id e with
      | some c =>
        have hloop : getFolderLoop g path wf (some u) st cur curPath (e :: rest) =
            getFolderLoop g path wf (some u) st c (curPath ++ "/" ++ e) rest := by
          simp only [getFolderLoop]
          rw [hb]
          simp [hV, hch]
        obtain ⟨ihD, ihN⟩ := ih c (curPath ++ "/" ++ e)
        unfold WalkSpec
        rw [hloop]
        constructor
        · intro m
          rw [ihD m]
          constructor
          · rintro ⟨p, hw, hm⟩
            exact ⟨p, WalkDenied.there hV hch hw, hm⟩
          · rintro ⟨p, hw, hm⟩
            cases hw with
            | here hL =>
              rw [hV] at hL
              simp at hL
            | there hL hch2 ht =>
              rw [hch] at hch2
              injection hch2 with hc2
              subst hc2
              exact ⟨p, ht, hm⟩
        · intro m
          rw [ihN m]
          constructor
          · rintro ⟨p, hw, hm⟩
            exact ⟨p, WalkNotFound.there hV hch hw, hm⟩
          · rintro ⟨p, hw, hm⟩
            cases hw with
            | here hL hch2 =>
              rw [hch] at hch2
              simp at hch2
            | there hL hch2 ht =>
              rw [hch] at hch2
              injection hch2 with hc2
              subst hc2
              exact ⟨p, ht, hm⟩
      | none =>
        have hloop : getFolderLoop g path wf (some u) st cur curPath (e :: rest) =
            (.error (.doesNotExist (notFoundMsg path wf (normpath (joinPath curPath e)))), st) := by
          simp only [getFolderLoop]
          rw [hb]
          simp [hV, hch]
        unfold WalkSpec
        rw [hloop]
        constructor
        · intro m
          constructor
          · intro h
            simp at h
          · rintro ⟨p, hw, hm⟩
            cases hw with
            | here hL =>
              rw [hV] at hL
              simp at hL
            | there hL hch2 ht =>
              rw [hch] at hch2
              simp at hch2
        · intro m
          constructor
          · intro h
            simp only at h
            refine ⟨normpath (joinPath curPath e), WalkNotFound.here hV hch, ?_⟩
            simpa using h.symm
          · rintro ⟨p, hw, hm⟩
            cases hw with
            | here hL hch2 =>
              subst hm
              rfl
            | there hL hch2 ht =>
              rw [hch] at hch2
              simp at hch2

/-- C5 witness: alice may LIST the root but not folder a; resolving
'a/b' is settled by the walk specification at that concrete state. -/
theorem C5_getFolder_error_naming_witness :
    WalkSpec noCacheSettings c5St "a/b" "/" alice exRoot "/" ["a", "b"] :=
  C5_getFolder_error_naming noCacheSettings c5St "a/b" "/" alice ["a", "b"] exRoot "/" rfl

theorem copyAcl_mem_user (db : Db) (dest src : Nat)
    (hfresh : ∀ p ∈ db.userPerms, p.folder ≠ dest) (p : UserPermission)
    (hp : p ∈ db.userPerms) (hpf : p.folder = src) :
    ({ user := p.user, folder := dest, bits := p.bits } : UserPermission)
      ∈ (Folder.copyAcl db dest src).userPerms := by
  have hmemc : p ∈ db.userPerms.filter (fun q => !(q.folder == dest)) :=
    List.mem_filter.mpr ⟨hp, by simpa using hfresh p hp⟩
  have hmemf : p ∈ (db.userPerms.filter (fun q => !(q.folder == dest))).filter
      (fun q => q.folder == src) :=
    List.mem_filter.mpr ⟨hmemc, by simpa using hpf⟩
  unfold Folder.copyAcl Folder.clearAcl
  apply List.mem_append_right
  rw [show ({ user := p.user, folder := dest, bits := p.bits } : UserPermission)
      = { user := p.user, folder := dest, bits := PermBits.setActions p.bits.getActions }
    from by rw [setActions_getActions]]
  exact List.mem_map_of_mem _ hmemf

theorem copyAcl_mem_group (db : Db) (dest src : Nat)
    (hfresh : ∀ p ∈ db.groupPerms, p.folder ≠ dest) (p : GroupPermission)
    (hp : p ∈ db.groupPerms) (hpf : p.folder = src) :
    ({ group := p.group, folder := dest, bits := p.bits } : GroupPermission)
      ∈ (Folder.copyAcl db dest src).groupPerms := by
  have hmemc : p ∈ db.groupPerms.filter (fun q => !(q.folder == dest)) :=
    List.mem_filter.mpr ⟨hp, by simpa using hfresh p hp⟩
  have hmemf : p ∈ (db.groupPerms.filter (fun q => !(q.folder == dest))).filter
      (fun q => q.folder == src) :=
    List.mem_filter.mpr ⟨hmemc, by simpa using hpf⟩
  unfold Folder.copyAcl Folder.clearAcl
  apply List.mem_append_right
  rw [show ({ group := p.group, folder := dest, bits := p.bits } : GroupPermission)
      = { group := p.group, folder := dest, bits := PermBits.setActions p.bits.getActions }
    from by rw [setActions_getActions]]
  exact List.mem_map_of_mem _ hmemf

theorem setPermissionsUser_mem_other (db : Db) (uid fid : Nat) (acts : String)
    (q : UserPermission) (hq : q ∈ db.userPerms) (hne : q.user ≠ uid) (hacts : ¬ acts = "") :
    q ∈ (setPermissionsUser db uid fid acts).userPerms := by
  unfold setPermissionsUser
  rw [if_neg hacts]
  by_cases hex : (db.userPerms.any (fun p => p.user == uid && p.folder == fid)) = true
  · rw [if_pos hex]
    have hfix : (if (q.user == uid && q.folder == fid) = true
        then { q with bits := PermBits.setActions acts } else q) = q := by
      rw [if_neg]
      simp [hne]
    have hmm := List.mem_map_of_mem (fun p => if (p.user == uid && p.folder == fid) = true
        then { p with bits := PermBits.setActions acts } else p) hq
    simpa only [hfix] using hmm
  · rw [if_neg hex]
    exact List.mem_append_left _ hq

theorem setPermissionsUser_groupPerms (db : Db) (uid fid : Nat) (acts : String) :
    (setPermissionsUser db uid fid acts).groupPerms = db.groupPerms := by
  unfold setPermissionsUser
  split
  · rfl
  · split <;> rfl

theorem find?_overwrite (l : List UserPermission) (uid fid : Nat) (bits : PermBits)
    (q : UserPermission)
    (hq : l.find? (fun p => p.user == uid && p.folder == fid) = some q) :
    (l.map (fun p => if (p.user == uid && p.folder == fid) = true
        then { p with bits := bits } else p)).find?
      (fun p => p.user == uid && p.folder == fid) = some { q with bits := bits } := by
  induction l with
  | nil => cases hq
  | cons x xs ih =>
    rw [List.map_cons]
    by_cases hx : (x.user == uid && x.folder == fid) = true
    · rw [List.find?_cons_of_pos xs hx] at hq
      injection hq with hxq
      subst hxq
      rw [if_pos hx]
      exact List.find?_cons_of_pos _ hx
    · rw [List.find?_cons_of_neg xs hx] at hq
      rw [if_neg hx]
      exact (List.find?_cons_of_neg (List.map (fun p =>
        if (p.user == uid && p.folder == fid) = true then { p with bits := bits } else p) xs)
        hx).trans (ih hq)

theorem setPermissionsUser_find (db : Db) (uid fid : Nat) (acts : String) (hacts : ¬ acts = "") :
    findUserPerm (setPermissionsUser db uid fid acts) uid fid
      = some (PermBits.setActions acts) := by
  unfold setPermissionsUser findUserPerm
  rw [if_neg hacts]
  by_cases hex : (db.userPerms.any (fun p => p.user == uid && p.folder == fid)) = true
  · rw [if_pos hex]
    rw [List.any_eq_true] at hex
    obtain ⟨x, hx, hpx⟩ := hex
    have hsome : (db.userPerms.find? (fun p => p.user == uid && p.folder == fid)).isSome := by
      rw [List.find?_isSome]
      exact ⟨x, hx, hpx⟩
    obtain ⟨q, hq⟩ := Option.isSome_iff_exists.mp hsome
    rw [find?_overwrite db.userPerms uid fid (PermBits.setActions acts) q hq]
    rfl
  · rw [if_neg hex]
    have hnone : db.userPerms.find? (fun p => p.user == uid && p.folder == fid) = none := by
      rw [List.find?_eq_none]
      intro x hx hpx
      exact hex (List.any_eq_true.mpr ⟨x, hx, hpx⟩)
    rw [List.find?_append, hnone]
    simp

theorem mem_foldl_union (x : Nat) (groups : List Nat) (f : Nat → Finset Nat) :
    ∀ init : Finset Nat, x ∈ init → x ∈ groups.foldl (fun acc a => acc ∪ f a) init := by
  induction groups with
  | nil =>
    intro init h
    simpa using h
  | cons a l ih =>
    intro init h
    rw [List.foldl_cons]
    exact ih _ (Finset.mem_union_left _ h)

theorem mem_allowed_of_userPerm (db : Db) (u : User) (a : Char) (q : UserPermission)
    (hq : q ∈ db.userPerms) (huser : q.user = u.id) (hallow : q.bits.allows a = true)
    (hactive : u.is_active = true) :
    q.folder ∈ getAllowedFoldersNoCache db (some u) a := by
  unfold getAllowedFoldersNoCache
  simp only [hactive, eq_self_iff_true, if_true]
  apply mem_foldl_union
  apply Finset.mem_union_right
  rw [List.mem_toFinset]
  exact List.mem_map_of_mem _ (List.mem_filter.mpr ⟨hq, by simp [huser, hallow]⟩)

theorem setPermissions_user_mem_userOther (db : Db) (f : Folder) (u : User) (acts : String)
    (q : UserPermission) (hq : q ∈ db.userPerms) (hne : q.user ≠ u.id) (hacts : ¬ acts = "") :
    q ∈ (Folder.setPermissions db f (.user u) acts).userPerms := by
  unfold Folder.setPermissions
  exact setPermissionsUser_mem_other db u.id f.id acts q hq hne hacts

theorem setPermissions_user_mem_groupAll (db : Db) (f : Folder) (u : User) (acts : String)
    (q : GroupPermission) (hq : q ∈ db.groupPerms) :
    q ∈ (Folder.setPermissions db f (.user u) acts).groupPerms := by
  unfold Folder.setPermissions
  rw [setPermissionsUser_groupPerms]
  exact hq

theorem setPermissions_user_find (db : Db) (f : Folder) (u : User) (acts : String)
    (hacts : ¬ acts = "") :
    findUserPerm (Folder.setPermissions db f (.user u) acts) u.id f.id
      = some (PermBits.setActions acts) := by
  unfold Folder.setPermissions
  exact setPermissionsUser_find db u.id f.id acts hacts

theorem isAllowedP_grant_all (g : Settings) (db : Db) (sub : Folder) (u : User)
    (hactive : u.is_active = true) :
    isAllowedP g (Folder.setPermissions db sub (.user u) Actions.ALL) sub (some u) 'a' = true := by
  have hfind := setPermissions_user_find db sub u Actions.ALL (by simp [Actions.ALL])
  unfold findUserPerm at hfind
  obtain ⟨q, hq, hbits⟩ := Option.map_eq_some'.mp hfind
  have hqmem := List.mem_of_find?_eq_some hq
  have hqpred := List.find?_some hq
  have hquser : q.user = u.id := by
    have h := (Bool.and_eq_true _ _).mp hqpred
    simpa using h.1
  have hqfolder : q.folder = sub.id := by
    have h := (Bool.and_eq_true _ _).mp hqpred
    simpa using h.2
  have hb : q.bits = PermBits.setActions Actions.ALL := hbits
  have hallow : q.bits.allows 'a' = true := by
    rw [hb]
    decide
  have hmem := mem_allowed_of_userPerm _ u 'a' q hqmem hquser hallow hactive
  rw [hqfolder] at hmem
  unfold isAllowedP
  simp [hmem]

/-- C8 amended: after makeSubFolder with an initial admin user, every
user grant of the parent for a principal other than the admin and
every group grant of the parent is present unchanged on the child; the
admin's own grant on the child is the full set Actions.ALL (replacing
whatever the parent granted the admin), and for an active admin the
child is in the admin's allowed set for ADMIN. -/
theorem C8_acl_inheritance_amended (g : Settings) (st : SysState) (self : Folder) (name : String)
    (admin : User) (sub : Folder) (st' : SysState)
    (hres : Folder.makeSubFolder st self name (some (.user admin)) = .ok (sub, st'))
    (hfreshU : ∀ p ∈ st.db.userPerms, p.folder ≠ st.db.nextFolderId)
    (hfreshG : ∀ p ∈ st.db.groupPerms, p.folder ≠ st.db.nextFolderId)
    (hactive : admin.is_active = true) :
    MakeSubFolderPost g st self admin sub st' := by
  unfold Folder.makeSubFolder at hres
  by_cases hdup : (st.db.folders.any (fun f => f.name == name && f.parent == some self.id)) = true
  · rw [if_pos hdup] at hres
    cases hres
  · rw [if_neg hdup] at hres
    simp only [saveNewFolder, flushCache, Except.ok.injEq, Prod.mk.injEq] at hres
    obtain ⟨hsub, hst⟩ := hres
    subst hsub
    subst hst
    refine ⟨?_, ?_, ?_, ?_⟩
    · intro p hp hpf hpu
      apply setPermissions_user_mem_userOther
      · apply copyAcl_mem_user
        · intro q hq
          exact hfreshU q hq
        · exact hp
        · exact hpf
      · exact hpu
      · simp [Actions.ALL]
    · intro p hp hpf
      apply setPermissions_user_mem_groupAll
      apply copyAcl_mem_group
      · intro q hq
        exact hfreshG q hq
      · exact hp
      · exact hpf
    · exact setPermissions_user_find _ _ admin Actions.ALL (by simp [Actions.ALL])
    · exact isAllowedP_grant_all g _ _ admin hactive

/-- C8 counterexample: the parent grants alice only 'rl'; after
makeSubFolder(parent, x, admin=alice) the child's grant for alice is
Actions.ALL, not 'rl', and no 'rl' row for alice exists on the child —
so not every parent grant is present unchanged on the child. -/
theorem C8_acl_inheritance_counterexample :
    findUserPerm c8St.db alice.id exRoot.id = some (PermBits.setActions "rl")
    ∧ (Folder.makeSubFolder c8St exRoot "x" (some (.user alice))).map (fun r =>
        (findUserPerm r.2.db alice.id r.1.id,
         r.2.db.userPerms.contains
           { user := alice.id, folder := r.1.id, bits := PermBits.setActions "rl" }))
      = .ok (some (PermBits.setActions Actions.ALL), false)
    ∧ PermBits.setActions Actions.ALL ≠ PermBits.setActions "rl" := by
  decide

/-- C8 amended witness: the concrete inheritance scenario (alice 'rl',
bob 'rlidc', one group grant on the parent) run through the amended
theorem. -/
theorem C8_acl_inheritance_amended_witness :
    MakeSubFolderPost noCacheSettings c8St exRoot alice c8Res.1 c8Res.2 :=
  C8_acl_inheritance_amended noCacheSettings c8St exRoot "x" alice c8Res.1 c8Res.2
    (by decide) (by decide) (by decide) rfl

end Geocam
